import Mathlib

/-!
Shallow embedding of `src/main.py` (astrbot_plugin_gender_detector): the
per-user gender cache with TTL expiry, the priority-ranked nickname list
maintained by `analyze_nicknames`, the user-alias map, the cache-file
loader, and the prompt-composition path, together with theorems checking
the claims of the specification about them.
-/

namespace GenderDetector

/-- Association-list lookup, first binding wins (Python `dict` access). -/
def lookupA {β : Type} : List (String × β) → String → Option β
  | [], _ => none
  | (k, v) :: rest, key => if k == key then some v else lookupA rest key

/-- Association-list update: replace the binding of `key` when present,
otherwise append a new binding (Python `d[key] = v`). -/
def insertA {β : Type} : List (String × β) → String → β → List (String × β)
  | [], key, val => [(key, val)]
  | (k, v) :: rest, key, val =>
    if k == key then (key, val) :: rest else (k, v) :: insertA rest key val

/-- One cached nickname entry `(nickname, priority)` as stored in
the nicknames field of `nickname_cache[user_id]` (`src/main.py`). -/
abbrev NickEntry := String × Int

/-- The duplicate-merging loop of `analyze_nicknames` (src/main.py lines
669-677): scan for the first entry whose text equals `nickname`; when found,
overwrite its priority only if the new priority is strictly larger and
return the updated list; return `none` when no entry matches. -/
def updateFirstNick : List NickEntry → String → Int → Option (List NickEntry)
  | [], _, _ => none
  | (n, p) :: rest, nickname, priority =>
    if n == nickname then
      some ((if priority > p then (nickname, priority) else (n, p)) :: rest)
    else
      (updateFirstNick rest nickname priority).map (fun l => (n, p) :: l)

/-- Stable insertion for a priority-descending order: an element from
earlier in the original list stays in front of later elements that have the
same priority, matching the stability of the Python `list.sort`. -/
def insertByPriorityDesc (e : NickEntry) : List NickEntry → List NickEntry
  | [] => [e]
  | f :: rest =>
    if e.2 ≥ f.2 then e :: f :: rest else f :: insertByPriorityDesc e rest

/-- Model of `existing.sort(key=lambda x: x[1], reverse=True)` at
src/main.py line 683: a stable sort by priority, descending. -/
def sortNicksDesc : List NickEntry → List NickEntry
  | [] => []
  | e :: rest => insertByPriorityDesc e (sortNicksDesc rest)

/-- The merge-or-append phase of `analyze_nicknames` (src/main.py lines
669-680): promote an existing entry of the same text, or append the new
candidate only while the list is strictly below `max_nicknames`. -/
def mergedNick (existing : List NickEntry) (nickname : String) (priority : Int)
    (maxNicknames : Nat) : List NickEntry :=
  match updateFirstNick existing nickname priority with
  | some l => l
  | none =>
    if existing.length < maxNicknames then existing ++ [(nickname, priority)]
    else existing

/-- The per-user nickname update of `analyze_nicknames` (src/main.py lines
666-685): merge the candidate into an existing entry of the same text, or
append it only while the list is below `max_nicknames`; then re-sort by
priority (descending, stable) and truncate to `max_nicknames`. Returns the
stored list together with the `selected` nickname (head of the sorted list,
taken before truncation, as in line 685). -/
def addNickname (existing : List NickEntry) (nickname : String) (priority : Int)
    (maxNicknames : Nat) : List NickEntry × Option String :=
  ((sortNicksDesc (mergedNick existing nickname priority maxNicknames)).take maxNicknames,
   (sortNicksDesc (mergedNick existing nickname priority maxNicknames)).head?.map Prod.fst)

/-- A sequence of nickname-learning updates for one user, applied in order
starting from the empty list (the state created at src/main.py line 660). -/
def runNicknameOps (maxNicknames : Nat) (ops : List (String × Int)) : List NickEntry :=
  ops.foldl (fun l op => (addNickname l op.1 op.2 maxNicknames).1) []

theorem insertByPriorityDesc_perm (e : NickEntry) (l : List NickEntry) :
    (insertByPriorityDesc e l).Perm (e :: l) := by
  induction l with
  | nil => simp [insertByPriorityDesc]
  | cons f rest ih =>
    by_cases h : e.2 ≥ f.2
    · simp [insertByPriorityDesc, h]
    · simp only [insertByPriorityDesc, if_neg h]
      exact (ih.cons f).trans (List.Perm.swap e f rest)

theorem sortNicksDesc_perm (l : List NickEntry) : (sortNicksDesc l).Perm l := by
  induction l with
  | nil => simp [sortNicksDesc]
  | cons e rest ih =>
    exact (insertByPriorityDesc_perm e (sortNicksDesc rest)).trans (ih.cons e)

theorem updateFirstNick_eq_none (l : List NickEntry) (nickname : String) (priority : Int)
    (h : l.countP (fun e => e.1 == nickname) = 0) :
    updateFirstNick l nickname priority = none := by
  induction l with
  | nil => rfl
  | cons f rest ih =>
    obtain ⟨n, q⟩ := f
    rw [List.countP_cons] at h
    by_cases hn : (n == nickname) = true
    · simp [hn] at h
    · have h' : rest.countP (fun e => e.1 == nickname) = 0 := by
        simpa [hn] using h
      simp [updateFirstNick, hn, ih h']

theorem updateFirstNick_found (l : List NickEntry) (nickname : String)
    (priority oldp : Int)
    (hc : l.countP (fun e => e.1 == nickname) = 1)
    (hm : (nickname, oldp) ∈ l) :
    ∃ l', updateFirstNick l nickname priority = some l' ∧
      l'.countP (fun e => e.1 == nickname) = 1 ∧
      (nickname, max oldp priority) ∈ l' ∧
      l'.length = l.length := by
  induction l with
  | nil => simp at hm
  | cons f rest ih =>
    obtain ⟨n, q⟩ := f
    by_cases hn : (n == nickname) = true
    · have hn' : n = nickname := eq_of_beq hn
      subst hn'
      have hrest : rest.countP (fun e => e.1 == n) = 0 := by
        rw [List.countP_cons] at hc
        simpa using hc
      have hq : oldp = q := by
        rcases List.mem_cons.mp hm with h1 | h2
        · have := congrArg Prod.snd h1
          simpa using this
        · exfalso
          have h3 := List.countP_eq_zero.mp hrest _ h2
          simp at h3
      subst hq
      refine ⟨(if priority > oldp then (n, priority) else (n, oldp)) :: rest, ?_, ?_, ?_, ?_⟩
      · simp [updateFirstNick]
      · by_cases hp : priority > oldp <;>
          simp [hp, List.countP_cons, hrest]
      · by_cases hp : priority > oldp
        · have hmax : max oldp priority = priority := max_eq_right (le_of_lt hp)
          simp [hp, hmax]
        · have hmax : max oldp priority = oldp := max_eq_left (not_lt.mp hp)
          simp [hp, hmax]
      · by_cases hp : priority > oldp <;> simp [hp]
    · have hm' : (nickname, oldp) ∈ rest := by
        rcases List.mem_cons.mp hm with h1 | h2
        · exfalso
          apply hn
          have : n = nickname := (congrArg Prod.fst h1.symm)
          simp [this]
        · exact h2
      have hc' : rest.countP (fun e => e.1 == nickname) = 1 := by
        rw [List.countP_cons] at hc
        simpa [hn] using hc
      obtain ⟨l', h1, h2, h3, h4⟩ := ih hc' hm'
      refine ⟨(n, q) :: l', ?_, ?_, ?_, ?_⟩
      · simp [updateFirstNick, hn, h1]
      · simp [List.countP_cons, hn, h2]
      · exact List.mem_cons_of_mem _ h3
      · simp [h4]

theorem addNickname_length_le (existing : List NickEntry) (nickname : String)
    (priority : Int) (maxN : Nat) :
    (addNickname existing nickname priority maxN).1.length ≤ maxN := by
  simp only [addNickname, List.length_take]
  exact Nat.min_le_left _ _

/-- C2: for every user, after any sequence of nickname-learning updates
(`analyze_nicknames`, starting from the empty list created for a new user),
the stored nickname list never exceeds the configured `max_nicknames`
capacity. -/
theorem nickname_capacity_invariant (maxNicknames : Nat) (ops : List (String × Int)) :
    (runNicknameOps maxNicknames ops).length ≤ maxNicknames := by
  have aux : ∀ (ops : List (String × Int)) (start : List NickEntry),
      start.length ≤ maxNicknames →
      (ops.foldl (fun l op => (addNickname l op.1 op.2 maxNicknames).1) start).length ≤
        maxNicknames := by
    intro ops
    induction ops with
    | nil => intro start h; simpa using h
    | cons op rest ih =>
      intro start _
      exact ih _ (addNickname_length_le start op.1 op.2 maxNicknames)
  exact aux ops [] (by simp)

/-- C1 counterexample: with cached labels `[("Max", 3), ("default", 1)]` at
capacity 2, adding `("Buddy", 2)` leaves the list unchanged — the code never
appends once the list is at `max_nicknames`, so nothing is evicted and the
result is not `[("Max", 3), ("Buddy", 2)]` as the claim states. -/
theorem eviction_scenario_counterexample :
    (addNickname [("Max", 3), ("default", 1)] "Buddy" 2 2).1 =
      [("Max", 3), ("default", 1)] ∧
    ([("Max", 3), ("default", 1)] : List NickEntry) ≠ [("Max", 3), ("Buddy", 2)] := by
  decide

/-- C1 (amended): when the label list of a user is at capacity, `analyze_nicknames`
never inserts a label text that is not already present — whatever its
priority, the candidate is discarded and no entry is evicted; in the scenario of the spec
 the cached list stays `[("Max", 3), ("default", 1)]` and "Buddy" is
dropped. -/
theorem addNickname_at_capacity_drops_new :
    (∀ (existing : List NickEntry) (nickname : String) (priority : Int) (maxN : Nat),
        existing.countP (fun e => e.1 == nickname) = 0 →
        maxN ≤ existing.length →
        (addNickname existing nickname priority maxN).1.countP
          (fun e => e.1 == nickname) = 0) ∧
    (addNickname [("Max", 3), ("default", 1)] "Buddy" 2 2).1 =
      [("Max", 3), ("default", 1)] := by
  constructor
  · intro existing nickname priority maxN h0 hfull
    have hnone := updateFirstNick_eq_none existing nickname priority h0
    have hnlt : ¬ existing.length < maxN := by omega
    have hmerged : mergedNick existing nickname priority maxN = existing := by
      simp [mergedNick, hnone, hnlt]
    have hsorted : (sortNicksDesc existing).countP (fun e => e.1 == nickname) = 0 := by
      rw [(sortNicksDesc_perm existing).countP_eq]
      exact h0
    have hsub :=
      (List.take_sublist maxN (sortNicksDesc existing)).countP_le
        (fun e => e.1 == nickname)
    simp only [addNickname, hmerged]
    omega
  · decide

theorem addNickname_at_capacity_witness :
    ([("Max", 3), ("default", 1)] : List NickEntry).countP
      (fun e => e.1 == "Buddy") = 0 ∧
    2 ≤ ([("Max", 3), ("default", 1)] : List NickEntry).length ∧
    (addNickname [("Max", 3), ("default", 1)] "Buddy" 2 2).1.countP
      (fun e => e.1 == "Buddy") = 0 :=
  ⟨by decide, by decide,
    addNickname_at_capacity_drops_new.1 [("Max", 3), ("default", 1)] "Buddy" 2 2
      (by decide) (by decide)⟩

/-- C5: a candidate whose text is already cached is merged into the existing
entry — the stored priority becomes the maximum of the old and new
priorities, no duplicate entry is created and the list length is unchanged;
and adding `("X", 2)` twice in succession to a fresh (empty) list yields
exactly one entry for "X", with priority 2. -/
theorem addNickname_merges_duplicates :
    (∀ (existing : List NickEntry) (nickname : String) (priority oldp : Int)
        (maxN : Nat),
        existing.countP (fun e => e.1 == nickname) = 1 →
        (nickname, oldp) ∈ existing →
        existing.length ≤ maxN →
        (addNickname existing nickname priority maxN).1.countP
            (fun e => e.1 == nickname) = 1 ∧
          (nickname, max oldp priority) ∈ (addNickname existing nickname priority maxN).1 ∧
          (addNickname existing nickname priority maxN).1.length = existing.length) ∧
    (∀ maxN : Nat, 1 ≤ maxN →
        (addNickname (addNickname [] "X" 2 maxN).1 "X" 2 maxN).1.countP
            (fun e => e.1 == "X") = 1 ∧
          ("X", (2 : Int)) ∈ (addNickname (addNickname [] "X" 2 maxN).1 "X" 2 maxN).1) := by
  have general : ∀ (existing : List NickEntry) (nickname : String)
      (priority oldp : Int) (maxN : Nat),
      existing.countP (fun e => e.1 == nickname) = 1 →
      (nickname, oldp) ∈ existing →
      existing.length ≤ maxN →
      (addNickname existing nickname priority maxN).1.countP
          (fun e => e.1 == nickname) = 1 ∧
        (nickname, max oldp priority) ∈ (addNickname existing nickname priority maxN).1 ∧
        (addNickname existing nickname priority maxN).1.length = existing.length := by
    intro existing nickname priority oldp maxN hc hm hlen
    obtain ⟨l', h1, h2, h3, h4⟩ :=
      updateFirstNick_found existing nickname priority oldp hc hm
    have hmerged : mergedNick existing nickname priority maxN = l' := by
      simp [mergedNick, h1]
    have hperm := sortNicksDesc_perm l'
    have hlen' : (sortNicksDesc l').length = existing.length := by
      rw [hperm.length_eq, h4]
    have htake : (sortNicksDesc l').take maxN = sortNicksDesc l' :=
      List.take_of_length_le (by omega)
    simp only [addNickname, hmerged, htake]
    refine ⟨?_, ?_, ?_⟩
    · rw [hperm.countP_eq]
      exact h2
    · exact hperm.mem_iff.mpr h3
    · omega
  refine ⟨general, ?_⟩
  intro maxN hmax
  obtain ⟨m, rfl⟩ : ∃ m, maxN = m + 1 := ⟨maxN - 1, by omega⟩
  have hfirst : (addNickname [] "X" 2 (m + 1)).1 = [("X", 2)] := by
    simp [addNickname, mergedNick, updateFirstNick, sortNicksDesc, insertByPriorityDesc]
  rw [hfirst]
  have := general [("X", 2)] "X" 2 2 (m + 1) (by decide) (by simp) (by simp)
  refine ⟨this.1, ?_⟩
  have hmax22 : max (2 : Int) 2 = 2 := by decide
  have := this.2.1
  rwa [hmax22] at this

theorem addNickname_merge_witness :
    (1 : Nat) ≤ 5 ∧
    (addNickname (addNickname [] "X" 2 5).1 "X" 2 5).1.countP
        (fun e => e.1 == "X") = 1 ∧
      ("X", (2 : Int)) ∈ (addNickname (addNickname [] "X" 2 5).1 "X" 2 5).1 :=
  ⟨by decide, (addNickname_merges_duplicates.2 5 (by decide)).1,
    (addNickname_merges_duplicates.2 5 (by decide)).2⟩

/-- C9 counterexample: the stored entries carry no `last_seen_at` field and
the sort key is the priority alone, so with two equal-priority labels the
earlier-inserted one is selected: after learning "AA" and then "BB" (both
priority 3), the selected label is "AA", not the more recently seen "BB"
required by the claim. -/
theorem recency_tiebreak_counterexample :
    (addNickname (addNickname [] "AA" 3 5).1 "BB" 3 5).2 = some "AA" ∧
    "AA" ≠ "BB" := by decide

/-- C9 (amended): nickname entries store no `last_seen_at` timestamp;
equal-priority ties are resolved purely by insertion order (the stable Python
sort), so of two distinct labels learned in order with the same priority the
earlier-inserted one is selected. -/
theorem equal_priority_resolved_by_insertion_order (a b : String) (p : Int)
    (maxN : Nat) (hab : a ≠ b) (hmax : 1 ≤ maxN) :
    (addNickname (addNickname [] a p maxN).1 b p maxN).2 = some a := by
  obtain ⟨m, rfl⟩ : ∃ m, maxN = m + 1 := ⟨maxN - 1, by omega⟩
  have h1 : (addNickname [] a p (m + 1)).1 = [(a, p)] := by
    simp [addNickname, mergedNick, updateFirstNick, sortNicksDesc, insertByPriorityDesc]
  have hba : (a == b) = false := by simp [hab]
  rw [h1]
  cases m with
  | zero =>
    simp [addNickname, mergedNick, updateFirstNick, hba, sortNicksDesc,
      insertByPriorityDesc]
  | succ k =>
    simp [addNickname, mergedNick, updateFirstNick, hba, sortNicksDesc,
      insertByPriorityDesc]

theorem equal_priority_insertion_order_witness :
    ("CC" : String) ≠ "DD" ∧ (1 : Nat) ≤ 4 ∧
    (addNickname (addNickname [] "CC" 3 4).1 "DD" 3 4).2 = some "CC" :=
  ⟨by decide, by decide,
    equal_priority_resolved_by_insertion_order "CC" "DD" 3 4 (by decide) (by decide)⟩

/-- One record of `gender_cache[user_id]` (src/main.py): detected gender,
platform nickname, and the write timestamp governing TTL expiry. -/
structure GenderEntry where
  gender : String
  nickname : String
  update_time : Int
deriving DecidableEq

/-- The fields of a platform API user-info result consumed by the plugin
(`get_group_member_info` / `get_stranger_info` data). -/
structure UserInfo where
  sex : String
  nickname : String
  card : String
deriving DecidableEq

/-- ASCII lower-casing of one character, the relevant fragment of the Python
`str.lower()` call for the platform `sex` field values. -/
def lowerChar (c : Char) : Char :=
  if 'A' ≤ c ∧ c ≤ 'Z' then Char.ofNat (c.toNat + 32) else c

/-- The Python `s.lower()` call applied to the `sex` field (ASCII folding). -/
def strLower (s : String) : String :=
  ⟨s.data.map lowerChar⟩

/-- Model of `_detect_gender_from_info` (src/main.py lines 351-363): map the
lower-cased platform `sex` field to "男"/"女", or `none` when there is no
signal (the lookup failed or the field is neither "male" nor "female"). -/
def detect_gender_from_info : Option UserInfo → Option String
  | none => none
  | some info =>
    let gender := strLower info.sex
    if gender == "male" then some "男"
    else if gender == "female" then some "女"
    else none

/-- Model of `_is_cache_expired` (src/main.py lines 610-614): the entry is
stale when strictly more than `expire_days` worth of seconds has elapsed
since `update_time`. The event-loop clock read is passed as `current_time`. -/
def is_cache_expired (current_time update_time expire_days : Int) : Bool :=
  current_time - update_time > expire_days * 24 * 60 * 60

/-- The per-user gender handling of `modify_llm_prompt` (src/main.py lines
546-563): query the platform API when the user is uncached or the entry is
expired; store the result only when a gender was detected; then read the
(possibly still stale) entry, defaulting to "未知". Returns the updated
cache and the gender string used for the prompt. -/
def prompt_gender_step (cache : List (String × GenderEntry)) (user_id : String)
    (current_time cache_expire_days : Int) (api_result : Option UserInfo) :
    List (String × GenderEntry) × String :=
  let needs_refresh :=
    match lookupA cache user_id with
    | none => true
    | some e => is_cache_expired current_time e.update_time cache_expire_days
  let cache' :=
    if needs_refresh then
      match api_result with
      | some info =>
        match detect_gender_from_info (some info) with
        | some g => insertA cache user_id ⟨g, info.nickname, current_time⟩
        | none => cache
      | none => cache
    else cache
  (cache', ((lookupA cache' user_id).map GenderEntry.gender).getD "未知")

/-- The per-user gender handling of the `gender` query command,
`check_gender` (src/main.py lines 864-877): the platform API is consulted
only when the user is entirely absent from the cache — an existing entry is
served as-is, with no expiry check. -/
def check_gender_step (cache : List (String × GenderEntry)) (target_user_id : String)
    (target_nickname : String) (current_time : Int) (api_result : Option UserInfo) :
    List (String × GenderEntry) × String :=
  let cache' :=
    if (lookupA cache target_user_id).isNone then
      match detect_gender_from_info api_result with
      | some g => insertA cache target_user_id ⟨g, target_nickname, current_time⟩
      | none => cache
    else cache
  (cache', ((lookupA cache' target_user_id).map GenderEntry.gender).getD "未知")

theorem lookupA_insertA_self {β : Type} (cache : List (String × β)) (key : String)
    (val : β) : lookupA (insertA cache key val) key = some val := by
  induction cache with
  | nil => simp [insertA, lookupA]
  | cons kv rest ih =>
    obtain ⟨k, v⟩ := kv
    by_cases hk : (k == key) = true
    · simp [insertA, hk, lookupA]
    · simp [insertA, hk, lookupA, ih]

/-- C6: the TTL expiry check is strict about the boundary — an entry written
`ttl + 1` seconds ago (with `ttl = expire_days` in seconds) is expired, while
one written `ttl - 1` seconds ago is still fresh. -/
theorem ttl_boundary_strict (now expire_days : Int) :
    is_cache_expired now (now - expire_days * 24 * 60 * 60 - 1) expire_days = true ∧
    is_cache_expired now (now - expire_days * 24 * 60 * 60 + 1) expire_days = false := by
  constructor <;> simp [is_cache_expired] <;> omega

/-- C4 counterexample: with an empty gender cache for "u2" and a failed
external lookup, the prompt-path refresh returns "未知" but stores nothing —
the resulting cache is still empty, there is no cached "unknown" sentinel,
so the external source will be queried again on the next call. -/
theorem unknown_sentinel_counterexample :
    prompt_gender_step [] "u2" 1000 30 none = ([], "未知") ∧
    lookupA (prompt_gender_step [] "u2" 1000 30 none).1 "u2" = none := by
  decide

/-- C4 (amended): when the user has no cached gender and the external lookup
fails or yields no gender signal, the refresh path returns "未知" and leaves
the cache unchanged — no "unknown" sentinel is stored, so every subsequent
call triggers the external lookup again. -/
theorem refresh_failure_returns_unknown_uncached
    (cache : List (String × GenderEntry)) (user_id : String)
    (current_time cache_expire_days : Int) (api_result : Option UserInfo)
    (hmiss : lookupA cache user_id = none)
    (hnosig : detect_gender_from_info api_result = none) :
    prompt_gender_step cache user_id current_time cache_expire_days api_result =
      (cache, "未知") ∧
    lookupA (prompt_gender_step cache user_id current_time cache_expire_days
      api_result).1 user_id = none := by
  have hcache : (prompt_gender_step cache user_id current_time cache_expire_days
      api_result).1 = cache := by
    cases api_result with
    | none => simp [prompt_gender_step, hmiss]
    | some info => simp [prompt_gender_step, hmiss, hnosig]
  refine ⟨?_, by rw [hcache]; exact hmiss⟩
  have : prompt_gender_step cache user_id current_time cache_expire_days api_result =
      ((prompt_gender_step cache user_id current_time cache_expire_days api_result).1,
        ((lookupA (prompt_gender_step cache user_id current_time cache_expire_days
          api_result).1 user_id).map GenderEntry.gender).getD "未知") := by
    cases api_result with
    | none => simp [prompt_gender_step, hmiss]
    | some info => simp [prompt_gender_step, hmiss, hnosig]
  rw [this, hcache, hmiss]
  simp

theorem refresh_failure_witness :
    lookupA ([] : List (String × GenderEntry)) "u2" = none ∧
    detect_gender_from_info none = none ∧
    prompt_gender_step [] "u2" 1000 30 none = ([], "未知") :=
  ⟨by decide, by decide,
    (refresh_failure_returns_unknown_uncached [] "u2" 1000 30 none rfl rfl).1⟩

/-- C3 counterexample: the `gender` query command serves a stale cached
value without re-derivation — with an entry written at time 0 and the
default 30-day TTL long elapsed, `check_gender` returns the cached "男"
and leaves the cache untouched, even though the platform API (were it
consulted) now reports "female". -/
theorem query_serves_stale_counterexample :
    is_cache_expired (30 * 24 * 60 * 60 + 1) 0 30 = true ∧
    check_gender_step [("u1", ⟨"男", "张三", 0⟩)] "u1" "张三"
        (30 * 24 * 60 * 60 + 1) (some ⟨"female", "张三", ""⟩) =
      ([("u1", ⟨"男", "张三", 0⟩)], "男") ∧
    detect_gender_from_info (some ⟨"female", "张三", ""⟩) = some "女" ∧
    "男" ≠ "女" := by
  decide

/-- C3 (amended): only the LLM-prompt path enforces the TTL — it re-derives
an expired entry and stores the fresh result with `update_time = now` —
while the `gender` query command re-derives only when the user is entirely
uncached and otherwise returns the cached gender unchanged, however stale. -/
theorem ttl_enforced_only_on_prompt_path :
    (∀ (cache : List (String × GenderEntry)) (user_id : String)
        (now days : Int) (info : UserInfo) (e : GenderEntry) (g : String),
        lookupA cache user_id = some e →
        is_cache_expired now e.update_time days = true →
        detect_gender_from_info (some info) = some g →
        prompt_gender_step cache user_id now days (some info) =
          (insertA cache user_id ⟨g, info.nickname, now⟩, g)) ∧
    (∀ (cache : List (String × GenderEntry)) (user_id nickname : String)
        (now : Int) (api_result : Option UserInfo) (e : GenderEntry),
        lookupA cache user_id = some e →
        check_gender_step cache user_id nickname now api_result =
          (cache, e.gender)) := by
  constructor
  · intro cache user_id now days info e g hfound hexp hdet
    simp [prompt_gender_step, hfound, hexp, hdet, lookupA_insertA_self]
  · intro cache user_id nickname now api_result e hfound
    simp [check_gender_step, hfound]

theorem ttl_enforcement_witness :
    lookupA [("u1", (⟨"男", "张三", 0⟩ : GenderEntry))] "u1" = some ⟨"男", "张三", 0⟩ ∧
    is_cache_expired (30 * 24 * 60 * 60 + 1) 0 30 = true ∧
    detect_gender_from_info (some ⟨"female", "李四", ""⟩) = some "女" ∧
    prompt_gender_step [("u1", ⟨"男", "张三", 0⟩)] "u1" (30 * 24 * 60 * 60 + 1) 30
        (some ⟨"female", "李四", ""⟩) =
      (insertA [("u1", ⟨"男", "张三", 0⟩)] "u1" ⟨"女", "李四", 30 * 24 * 60 * 60 + 1⟩,
        "女") ∧
    check_gender_step [("u1", ⟨"男", "张三", 0⟩)] "u1" "张三" (30 * 24 * 60 * 60 + 1)
        (some ⟨"female", "李四", ""⟩) =
      ([("u1", ⟨"男", "张三", 0⟩)], "男") :=
  ⟨by decide, by decide, by decide,
    ttl_enforced_only_on_prompt_path.1 [("u1", ⟨"男", "张三", 0⟩)] "u1"
      (30 * 24 * 60 * 60 + 1) 30 ⟨"female", "李四", ""⟩ ⟨"男", "张三", 0⟩ "女"
      (by decide) (by decide) (by decide),
    ttl_enforced_only_on_prompt_path.2 [("u1", ⟨"男", "张三", 0⟩)] "u1" "张三"
      (30 * 24 * 60 * 60 + 1) (some ⟨"female", "李四", ""⟩) ⟨"男", "张三", 0⟩
      (by decide)⟩

/-- Log severity of the `logger` calls made by the cache loader. -/
inductive LogLevel where
  | error
  | warning
deriving DecidableEq

/-- Model of `_load_cache` (src/main.py lines 97-105) over an abstracted
backing file: `none` when `file_path.exists()` is false, `some none` when
the file exists but reading/`json.load` raises, `some (some d)` when it
parses to the mapping `d`. Returns the loaded mapping together with the
log messages emitted; the function is total, so no exception ever reaches
the caller. -/
def load_cache (β : Type) :
    Option (Option (List (String × β))) → List (String × β) × List LogLevel
  | none => ([], [])
  | some none => ([], [LogLevel.error])
  | some (some d) => (d, [])

/-- C7 counterexample: for a missing backing file, `_load_cache` returns the
empty mapping but logs nothing at all — in particular no warning — contrary
to the claim that a warning is logged for every missing-or-malformed file. -/
theorem load_missing_file_counterexample :
    load_cache GenderEntry none = ([], []) ∧
    LogLevel.warning ∉ (load_cache GenderEntry none).2 := by
  decide

/-- C7 (amended): `_load_cache` fails soft — it returns the empty mapping for
a missing file (silently, with no log message) and for a malformed file
(logging at error severity), and returns the parsed mapping otherwise; being
a total function, it never propagates an exception to its caller. -/
theorem load_cache_fails_soft (β : Type) :
    load_cache β none = ([], []) ∧
    load_cache β (some none) = ([], [LogLevel.error]) ∧
    ∀ d : List (String × β), load_cache β (some (some d)) = (d, []) :=
  ⟨rfl, rfl, fun _ => rfl⟩

/-- Model of `_update_user_alias` (src/main.py lines 338-349): record
`user_id` under `aliasName` only when the alias is a nonempty string of at
least 2 characters; skip duplicates; after appending, keep only the last 10
user ids. -/
def update_user_alias (cache : List (String × List String)) (aliasName : String)
    (user_id : String) : List (String × List String) :=
  if aliasName ≠ "" ∧ 2 ≤ aliasName.length then
    let ids := (lookupA cache aliasName).getD []
    if user_id ∈ ids then cache
    else
      let grown := ids ++ [user_id]
      let trimmed := if 10 < grown.length then grown.drop (grown.length - 10) else grown
      insertA cache aliasName trimmed
  else cache

/-- A sequence of `_update_user_alias` calls applied in order, starting from
the empty alias map. -/
def run_alias_ops (ops : List (String × String)) : List (String × List String) :=
  ops.foldl (fun c op => update_user_alias c op.1 op.2) []

theorem mem_insertA {β : Type} (cache : List (String × β)) (key : String) (val : β)
    (p : String × β) (hp : p ∈ insertA cache key val) :
    p = (key, val) ∨ p ∈ cache := by
  induction cache with
  | nil =>
    simp [insertA] at hp
    exact Or.inl hp
  | cons kv rest ih =>
    obtain ⟨k, v⟩ := kv
    by_cases hk : (k == key) = true
    · simp only [insertA, if_pos hk] at hp
      rcases List.mem_cons.mp hp with h1 | h2
      · exact Or.inl h1
      · exact Or.inr (List.mem_cons_of_mem _ h2)
    · simp only [insertA, if_neg hk] at hp
      rcases List.mem_cons.mp hp with h1 | h2
      · exact Or.inr (h1 ▸ List.mem_cons_self _ _)
      · rcases ih h2 with h3 | h4
        · exact Or.inl h3
        · exact Or.inr (List.mem_cons_of_mem _ h4)

theorem lookupA_mem {β : Type} (cache : List (String × β)) (key : String) (val : β)
    (h : lookupA cache key = some val) : (key, val) ∈ cache := by
  induction cache with
  | nil => simp [lookupA] at h
  | cons kv rest ih =>
    obtain ⟨k, v⟩ := kv
    by_cases hk : (k == key) = true
    · simp only [lookupA, if_pos hk] at h
      have : k = key := eq_of_beq hk
      subst this
      exact (Option.some.injEq _ _ ▸ h) ▸ List.mem_cons_self _ _
    · simp only [lookupA, if_neg hk] at h
      exact List.mem_cons_of_mem _ (ih h)

theorem update_user_alias_preserves (cache : List (String × List String))
    (aliasName user_id : String)
    (hinv : ∀ p ∈ cache, 2 ≤ p.1.length ∧ p.2.Nodup ∧ p.2.length ≤ 10) :
    ∀ p ∈ update_user_alias cache aliasName user_id,
      2 ≤ p.1.length ∧ p.2.Nodup ∧ p.2.length ≤ 10 := by
  intro p hp
  by_cases hg : aliasName ≠ "" ∧ 2 ≤ aliasName.length
  · simp only [update_user_alias, if_pos hg] at hp
    by_cases hmem : user_id ∈ (lookupA cache aliasName).getD []
    · rw [if_pos hmem] at hp
      exact hinv p hp
    · rw [if_neg hmem] at hp
      rcases mem_insertA _ _ _ _ hp with h1 | h2
      · subst h1
        refine ⟨hg.2, ?_, ?_⟩
        · have hids : ((lookupA cache aliasName).getD []).Nodup := by
            cases hl : lookupA cache aliasName with
            | none => simp
            | some ids =>
              have := hinv _ (lookupA_mem _ _ _ hl)
              simpa using this.2.1
          have hgrown : (((lookupA cache aliasName).getD []) ++ [user_id]).Nodup := by
            simp [List.nodup_append, hids, hmem]
          by_cases hlen : 10 < (((lookupA cache aliasName).getD []) ++ [user_id]).length
          · simp only [if_pos hlen]
            exact hgrown.sublist (List.drop_sublist _ _)
          · simp only [if_neg hlen]
            exact hgrown
        · by_cases hlen : 10 < (((lookupA cache aliasName).getD []) ++ [user_id]).length
          · simp only [if_pos hlen, List.length_drop]
            omega
          · simp only [if_neg hlen]
            omega
      · exact hinv p h2
  · simp only [update_user_alias, if_neg hg] at hp
    exact hinv p hp

/-- C10: starting from an empty alias map, after any sequence of
`_update_user_alias` calls every recorded alias has at least 2 characters,
no user-id list of an alias contains duplicates, and none
exceeds 10 entries. -/
theorem alias_map_invariants (ops : List (String × String)) :
    ∀ p ∈ run_alias_ops ops, 2 ≤ p.1.length ∧ p.2.Nodup ∧ p.2.length ≤ 10 := by
  have aux : ∀ (ops : List (String × String)) (start : List (String × List String)),
      (∀ p ∈ start, 2 ≤ p.1.length ∧ p.2.Nodup ∧ p.2.length ≤ 10) →
      ∀ p ∈ ops.foldl (fun c op => update_user_alias c op.1 op.2) start,
        2 ≤ p.1.length ∧ p.2.Nodup ∧ p.2.length ≤ 10 := by
    intro ops
    induction ops with
    | nil => intro start h; simpa using h
    | cons op rest ih =>
      intro start h
      exact ih _ (update_user_alias_preserves start op.1 op.2 h)
  exact aux ops [] (by simp)

theorem alias_map_invariants_witness :
    ("张三", ["u1"]) ∈ run_alias_ops [("张三", "u1")] ∧
    2 ≤ ("张三" : String).length ∧ (["u1"] : List String).Nodup ∧
    (["u1"] : List String).length ≤ 10 :=
  ⟨by decide, alias_map_invariants [("张三", "u1")] ("张三", ["u1"]) (by decide)⟩

/-- The `default_nicknames` table of the plugin configuration. -/
structure DefaultNicknames where
  male : String
  female : String
  unknown : String
deriving DecidableEq

/-- The configuration fields read by the modelled code paths, with the
defaults installed by `_ensure_default_config` (src/main.py lines 63-95). -/
structure Config where
  max_nicknames : Nat
  cache_expire_days : Int
  default_nicknames : DefaultNicknames
deriving DecidableEq

/-- The default configuration of `_ensure_default_config`. -/
def defaultConfig : Config :=
  ⟨5, 30, ⟨"小哥哥", "小姐姐", "朋友"⟩⟩

def charsBeginWith : List Char → List Char → Bool
  | [], _ => true
  | _ :: _, [] => false
  | a :: as, b :: bs => a == b && charsBeginWith as bs

def charsContain (pat : List Char) : List Char → Bool
  | [] => charsBeginWith pat []
  | b :: bs => charsBeginWith pat (b :: bs) || charsContain pat bs

/-- The Python substring test `pat in s`. -/
def strContains (s pat : String) : Bool :=
  charsContain pat.data s.data

/-- Model of `_get_default_nickname` (src/main.py lines 476-496): pick the
configured default for the gender, then override it by persona keywords
found in the active system prompt. -/
def get_default_nickname (cfg : Config) (gender : String) (persona_prompt : String) :
    String :=
  let dflt :=
    if gender == "男" then cfg.default_nicknames.male
    else if gender == "女" then cfg.default_nicknames.female
    else cfg.default_nicknames.unknown
  if strContains persona_prompt "可爱" || strContains persona_prompt "萌" then
    if gender == "女" then "小可爱" else dflt
  else if strContains persona_prompt "御姐" then
    if gender == "女" then "姐姐" else "先生"
  else if strContains persona_prompt "傲娇" then
    if gender == "女" then "笨蛋" else "家伙"
  else dflt

/-- One record of `nickname_cache[user_id]` (src/main.py): the ranked
nickname list and the currently selected nickname. -/
structure NicknameInfo where
  nicknames : List NickEntry
  selected : Option String
deriving DecidableEq

/-- The per-user body of the `modify_llm_prompt` loop (src/main.py lines
546-586): refresh the gender cache when missing or expired, install a
default-nickname record for users with no nickname entry, and build the
info line later appended to the outbound prompt. The state threads the
gender cache, the nickname cache, and the info lines accumulated so far. -/
def prompt_user_step (cfg : Config) (sender_id : String)
    (mentioned_users : List String) (system_prompt : String) (current_time : Int)
    (api : String → Option UserInfo)
    (state : List (String × GenderEntry) × List (String × NicknameInfo) × List String)
    (user_id : String) :
    List (String × GenderEntry) × List (String × NicknameInfo) × List String :=
  let gc := state.1
  let nc := state.2.1
  let infos := state.2.2
  let step := prompt_gender_step gc user_id current_time cfg.cache_expire_days
    (api user_id)
  let gc' := step.1
  let gender := step.2
  let ncPair :=
    match lookupA nc user_id with
    | some info =>
      (nc, match info.selected with
        | some s => s
        | none => "None")
    | none =>
      let d := get_default_nickname cfg gender system_prompt
      (insertA nc user_id ⟨[(d, 1)], some d⟩, d)
  let nc' := ncPair.1
  let selected_nickname := ncPair.2
  let role := if user_id == sender_id then "发送者" else "被提及用户"
  let info_line :=
    role ++ ": ID=" ++ user_id ++ ", 性别=" ++ gender ++ ", 称呼=" ++ selected_nickname
  let gender_nick := ((lookupA gc' user_id).map GenderEntry.nickname).getD ""
  let info_line :=
    if mentioned_users.contains user_id && !(gender_nick == "") then
      info_line ++ ", 昵称=" ++ gender_nick
    else info_line
  (gc', nc', infos ++ [info_line])

/-- The cache-and-annotation effect of one `modify_llm_prompt` invocation
(src/main.py lines 546-586): fold the per-user step over the collected user
ids, starting from the current caches and no info lines. -/
def modify_llm_prompt_caches (cfg : Config) (sender_id : String)
    (mentioned_users : List String) (system_prompt : String) (current_time : Int)
    (api : String → Option UserInfo) (gc : List (String × GenderEntry))
    (nc : List (String × NicknameInfo)) (all_user_ids : List String) :
    List (String × GenderEntry) × List (String × NicknameInfo) × List String :=
  all_user_ids.foldl
    (prompt_user_step cfg sender_id mentioned_users system_prompt current_time api)
    (gc, nc, [])

/-- C8 counterexample: composing the prompt annotation is not read-only —
for a sender with no cached nickname record, `modify_llm_prompt` inserts a
default-nickname entry into the nickname cache, so the nickname cache
changes from empty to nonempty. -/
theorem prompt_not_readonly_counterexample :
    (modify_llm_prompt_caches defaultConfig "u1" [] "" 1000 (fun _ => none)
        [] [] ["u1"]).2.1 =
      [("u1", ⟨[("朋友", 1)], some "朋友"⟩)] ∧
    ([("u1", (⟨[("朋友", 1)], some "朋友"⟩ : NicknameInfo))] :
        List (String × NicknameInfo)) ≠ [] := by
  decide

/-- C8 (amended): the prompt-composition path may write both stores — it
refreshes the gender cache and inserts default nickname records — and it is
read-only only in the narrow case in which every involved user already has a
fresh (unexpired) gender entry and an existing nickname record; in that case
both caches are returned unchanged and only the annotation lines are
produced. -/
theorem prompt_caches_unchanged_when_fresh (cfg : Config) (sender_id : String)
    (mentioned_users : List String) (system_prompt : String) (current_time : Int)
    (api : String → Option UserInfo) (gc : List (String × GenderEntry))
    (nc : List (String × NicknameInfo)) (all_user_ids : List String)
    (hfresh : ∀ uid ∈ all_user_ids, ∃ e, lookupA gc uid = some e ∧
      is_cache_expired current_time e.update_time cfg.cache_expire_days = false)
    (hnick : ∀ uid ∈ all_user_ids, (lookupA nc uid).isSome) :
    (modify_llm_prompt_caches cfg sender_id mentioned_users system_prompt
        current_time api gc nc all_user_ids).1 = gc ∧
    (modify_llm_prompt_caches cfg sender_id mentioned_users system_prompt
        current_time api gc nc all_user_ids).2.1 = nc := by
  have step_id : ∀ (infos : List String) (uid : String), uid ∈ all_user_ids →
      ∃ line, prompt_user_step cfg sender_id mentioned_users system_prompt
        current_time api (gc, nc, infos) uid = (gc, nc, infos ++ [line]) := by
    intro infos uid hmem
    obtain ⟨e, he, hexp⟩ := hfresh uid hmem
    have hgstep : prompt_gender_step gc uid current_time cfg.cache_expire_days
        (api uid) = (gc, ((lookupA gc uid).map GenderEntry.gender).getD "未知") := by
      simp [prompt_gender_step, he, hexp]
    obtain ⟨info, hinfo⟩ := Option.isSome_iff_exists.mp (hnick uid hmem)
    simp only [prompt_user_step, hgstep, hinfo]
    exact ⟨_, rfl⟩
  have aux : ∀ (users : List String), (∀ uid ∈ users, uid ∈ all_user_ids) →
      ∀ infos : List String,
      ∃ lines, users.foldl
        (prompt_user_step cfg sender_id mentioned_users system_prompt current_time api)
        (gc, nc, infos) = (gc, nc, lines) := by
    intro users
    induction users with
    | nil => intro _ infos; exact ⟨infos, rfl⟩
    | cons uid rest ih =>
      intro hsub infos
      obtain ⟨line, hline⟩ := step_id infos uid (hsub uid (List.mem_cons_self _ _))
      have := ih (fun u hu => hsub u (List.mem_cons_of_mem _ hu)) (infos ++ [line])
      simpa [List.foldl_cons, hline] using this
  obtain ⟨lines, hlines⟩ := aux all_user_ids (fun _ h => h) []
  rw [modify_llm_prompt_caches, hlines]
  exact ⟨rfl, rfl⟩

theorem prompt_readonly_witness :
    (∀ uid ∈ ["u1"], ∃ e, lookupA [("u1", (⟨"男", "张三", 1000⟩ : GenderEntry))] uid =
        some e ∧ is_cache_expired 1000 e.update_time defaultConfig.cache_expire_days
          = false) ∧
    (∀ uid ∈ ["u1"],
      (lookupA [("u1", (⟨[("X", 2)], some "X"⟩ : NicknameInfo))] uid).isSome) ∧
    (modify_llm_prompt_caches defaultConfig "u1" [] "" 1000 (fun _ => none)
        [("u1", ⟨"男", "张三", 1000⟩)] [("u1", ⟨[("X", 2)], some "X"⟩)]
        ["u1"]).1 = [("u1", ⟨"男", "张三", 1000⟩)] ∧
    (modify_llm_prompt_caches defaultConfig "u1" [] "" 1000 (fun _ => none)
        [("u1", ⟨"男", "张三", 1000⟩)] [("u1", ⟨[("X", 2)], some "X"⟩)]
        ["u1"]).2.1 = [("u1", ⟨[("X", 2)], some "X"⟩)] := by
  have h1 : ∀ uid ∈ ["u1"],
      ∃ e, lookupA [("u1", (⟨"男", "张三", 1000⟩ : GenderEntry))] uid = some e ∧
        is_cache_expired 1000 e.update_time defaultConfig.cache_expire_days = false := by
    intro uid huid
    rcases List.mem_singleton.mp huid with rfl
    exact ⟨⟨"男", "张三", 1000⟩, by decide, by decide⟩
  have h2 : ∀ uid ∈ ["u1"],
      (lookupA [("u1", (⟨[("X", 2)], some "X"⟩ : NicknameInfo))] uid).isSome := by
    intro uid huid
    rcases List.mem_singleton.mp huid with rfl
    decide
  have h3 := prompt_caches_unchanged_when_fresh defaultConfig "u1" [] "" 1000
    (fun _ => none) [("u1", ⟨"男", "张三", 1000⟩)] [("u1", ⟨[("X", 2)], some "X"⟩)]
    ["u1"] h1 h2
  exact ⟨h1, h2, h3.1, h3.2⟩

end GenderDetector
